import Mathlib

/-!
Verification of the interlaced sparse self-attention (ISA) decoder of
`paddlex/cv/nets/paddleseg/models/isanet.py` and of the worker-count helper of
`paddlex/utils/env.py`.

Tensors are embedded as total functions from (batch, channel, row, column)
indices to integer values; `reshape` follows the framework's contiguous
row-major semantics and `transpose` follows its permutation semantics.
Shape-level behaviour of the network is embedded separately on a record of the
four tensor extents.
-/

/-- A 4-D feature map (batch, channel, height, width), embedded as a total
function on indices; values outside the nominal extent are irrelevant to every
statement below, which always constrains the indices it touches. -/
def Tensor4 : Type := Nat → Nat → Nat → Nat → Int

/-- A 6-D tensor, used for the intermediate layouts of the ISA head. -/
def Tensor6 : Type := Nat → Nat → Nat → Nat → Nat → Nat → Int

/-- Ceiling division on naturals; embeds `math.ceil(h / P_h)` from
`ISAHead.forward` for positive divisors. -/
def ceilDiv (a b : Nat) : Nat := (a + b - 1) / b

/-- The height deficit `pad_h = Q_h * P_h - h` of `ISAHead.forward`. -/
def padH (h Ph : Nat) : Nat := ceilDiv h Ph * Ph - h

/-- The width deficit `pad_w = Q_w * P_w - w` of `ISAHead.forward`. -/
def padW (w Pw : Nat) : Nat := ceilDiv w Pw * Pw - w

/-- Zero padding `F.pad(x, [pad_w//2, pad_w - pad_w//2, pad_h//2,
pad_h - pad_h//2])`: the original map sits at row offset `pad_h//2` and column
offset `pad_w//2`, with a zero border elsewhere. -/
def padFeat (x : Tensor4) (h w Ph Pw : Nat) : Tensor4 :=
  fun a b i j =>
    if padH h Ph / 2 ≤ i ∧ i < padH h Ph / 2 + h ∧
       padW w Pw / 2 ≤ j ∧ j < padW w Pw / 2 + w then
      x a b (i - padH h Ph / 2) (j - padW w Pw / 2)
    else 0

/-- Row-major `reshape([n, c, Q_h, P_h, Q_w, P_w])` of a 4-D map whose spatial
extents are `Q_h * P_h` and `Q_w * P_w`: spatial row `q * P_h + p` splits into
group `q` and offset `p`, and likewise for columns. -/
def reshapeSplitHW (Ph Pw : Nat) (t : Tensor4) : Tensor6 :=
  fun a b q p r s => t a b (q * Ph + p) (r * Pw + s)

/-- The `transpose([0, 3, 5, 1, 2, 4])` of `ISAHead.forward`. -/
def transpose035124 (t : Tensor6) : Tensor6 :=
  fun i0 i1 i2 i3 i4 i5 => t i0 i3 i4 i1 i5 i2

/-- The `transpose([0, 4, 5, 3, 1, 2])` of `ISAHead.forward`. -/
def transpose045312 (t : Tensor6) : Tensor6 :=
  fun i0 i1 i2 i3 i4 i5 => t i0 i4 i5 i3 i1 i2

/-- The `transpose([0, 3, 1, 4, 2, 5])` of `ISAHead.forward`. -/
def transpose031425 (t : Tensor6) : Tensor6 :=
  fun i0 i1 i2 i3 i4 i5 => t i0 i2 i4 i1 i3 i5

/-- Row-major `reshape([-1, c, u, v])` folding the three leading axes (of
extents `a`, `d1`, `d2`) of a 6-D tensor into one batch axis: batch index `m`
decodes as `(m / (d1*d2), m / d2 % d1, m % d2)`. -/
def mergeBatch (d1 d2 : Nat) (t : Tensor6) : Tensor4 :=
  fun m b u v => t (m / (d1 * d2)) (m / d2 % d1) (m % d2) b u v

/-- Row-major `reshape([n, d1, d2, c, u, v])` splitting the batch axis of a 4-D
tensor back into three axes: `(a, x, y)` encodes as `(a * d1 + x) * d2 + y`. -/
def splitBatch (d1 d2 : Nat) (t : Tensor4) : Tensor6 :=
  fun a x y b u v => t ((a * d1 + x) * d2 + y) b u v

/-- Row-major `reshape([n, c, P_h * Q_h, P_w * Q_w])` merging the split spatial
axes of a 6-D tensor (ordered `n, c, Q_h, P_h, Q_w, P_w`) back into two. -/
def mergeHW (Ph Pw : Nat) (t : Tensor6) : Tensor4 :=
  fun a b y x => t a b (y / Ph) (y % Ph) (x / Pw) (x % Pw)

/-- The crop `feat[:, :, pad_h//2 : pad_h//2 + h, pad_w//2 : pad_w//2 + w]` of
`ISAHead.forward`, removing the padding inserted before the partition. -/
def cropFeat (h w Ph Pw : Nat) (t : Tensor4) : Tensor4 :=
  fun a b i j => t a b (padH h Ph / 2 + i) (padW w Pw / 2 + j)

/-- The global-pass layout: `reshape([n, c, Q_h, P_h, Q_w, P_w])`, then
`transpose([0, 3, 5, 1, 2, 4])`, then `reshape([-1, c, Q_h, Q_w])`
(lines of `ISAHead.forward` producing the input of `global_relation`). -/
def globalLayout (Ph Pw : Nat) (t : Tensor4) : Tensor4 :=
  mergeBatch Ph Pw (transpose035124 (reshapeSplitHW Ph Pw t))

/-- The local-pass layout: `reshape([n, P_h, P_w, c, Q_h, Q_w])`, then
`transpose([0, 4, 5, 3, 1, 2])`, then `reshape([-1, c, P_h, P_w])`
(lines of `ISAHead.forward` producing the input of `local_relation`). -/
def localLayout (Ph Pw Qh Qw : Nat) (t : Tensor4) : Tensor4 :=
  mergeBatch Qh Qw (transpose045312 (splitBatch Ph Pw t))

/-- The recomposition: `reshape([n, Q_h, Q_w, c, P_h, P_w])`, then
`transpose([0, 3, 1, 4, 2, 5])`, then `reshape([n, c, P_h * Q_h, P_w * Q_w])`. -/
def recompose (Ph Pw Qh Qw : Nat) (t : Tensor4) : Tensor4 :=
  mergeHW Ph Pw (transpose031425 (splitBatch Qh Qw t))

/-- The full spatial pipeline of `ISAHead.forward` between `in_conv` and the
fusion, with the two attention passes abstracted as arbitrary transformations:
conditional padding, global layout, `global_relation`, local layout,
`local_relation`, recomposition, conditional crop. -/
def isaSpatialPipeline (h w Ph Pw : Nat)
    (globalRel localRel : Tensor4 → Tensor4) (x : Tensor4) : Tensor4 :=
  let Qh := ceilDiv h Ph
  let Qw := ceilDiv w Pw
  let feat0 := if 0 < padH h Ph ∨ 0 < padW w Pw then padFeat x h w Ph Pw else x
  let g := globalRel (globalLayout Ph Pw feat0)
  let l := localRel (localLayout Ph Pw Qh Qw g)
  let r := recompose Ph Pw Qh Qw l
  if 0 < padH h Ph ∨ 0 < padW w Pw then cropFeat h w Ph Pw r else r

/-- Shape of a tensor after a framework `transpose(perm)`, at the level of
dimension lists. -/
def transposeShape (perm : List Nat) (s : List Nat) : List Nat :=
  perm.map (fun i => s.getD i 0)

/-- Shape inference for a `reshape([-1, rest...])`: the leading extent is the
total element count divided by the product of the specified extents. -/
def reshapeShapeNeg1Head (s : List Nat) (rest : List Nat) : List Nat :=
  s.prod / rest.prod :: rest

/-- Dimension list produced by the global-pass rearrangement
(`transpose([0, 3, 5, 1, 2, 4])` of `[n, c, Q_h, P_h, Q_w, P_w]`, then
`reshape([-1, c, Q_h, Q_w])`). -/
def isaGlobalShapeL (n c Qh Ph Qw Pw : Nat) : List Nat :=
  reshapeShapeNeg1Head (transposeShape [0, 3, 5, 1, 2, 4] [n, c, Qh, Ph, Qw, Pw])
    [c, Qh, Qw]

/-- Dimension list produced by the local-pass rearrangement
(`transpose([0, 4, 5, 3, 1, 2])` of `[n, P_h, P_w, c, Q_h, Q_w]`, then
`reshape([-1, c, P_h, P_w])`). -/
def isaLocalShapeL (n c Qh Ph Qw Pw : Nat) : List Nat :=
  reshapeShapeNeg1Head (transposeShape [0, 4, 5, 3, 1, 2] [n, Ph, Pw, c, Qh, Qw])
    [c, Ph, Pw]

/-- Length of a clamped slice `lo : hi` of an axis of extent `size`
(framework slicing clamps both bounds to the extent). -/
def cropSliceLen (lo hi size : Nat) : Nat := min hi size - min lo size

/-- Dimension list of the result of the spatial pipeline of `ISAHead.forward`:
the recomposition reshape states `[n, c, P_h * Q_h, P_w * Q_w]` explicitly, and
the crop (applied only when padding happened) slices both spatial axes. -/
def isaPipelineShapeL (n c h w Ph Pw : Nat) : List Nat :=
  let Qh := ceilDiv h Ph
  let Qw := ceilDiv w Pw
  if 0 < padH h Ph ∨ 0 < padW w Pw then
    [n, c, cropSliceLen (padH h Ph / 2) (padH h Ph / 2 + h) (Ph * Qh),
     cropSliceLen (padW w Pw / 2) (padW w Pw / 2 + w) (Pw * Qw)]
  else [n, c, Ph * Qh, Pw * Qw]

/-- A concrete feature map used to evaluate theorems on concrete inputs. -/
def sampleT : Tensor4 :=
  fun a b i j => (a * 1000 + b * 100 + i * 10 + j : Int)

theorem le_ceilDiv_mul (h Ph : Nat) (hP : 0 < Ph) : h ≤ ceilDiv h Ph * Ph := by
  unfold ceilDiv
  have h2 : Ph * ((h + Ph - 1) / Ph) + (h + Ph - 1) % Ph = h + Ph - 1 :=
    Nat.div_add_mod _ _
  have hm : (h + Ph - 1) % Ph < Ph := Nat.mod_lt _ hP
  rw [Nat.mul_comm]
  omega

theorem encode_div_mod (a x y d1 d2 : Nat) (hx : x < d1) (hy : y < d2) :
    ((a * d1 + x) * d2 + y) / (d1 * d2) = a ∧
    ((a * d1 + x) * d2 + y) / d2 % d1 = x ∧
    ((a * d1 + x) * d2 + y) % d2 = y := by
  have hd2 : 0 < d2 := Nat.zero_lt_of_lt hy
  have h1 : ((a * d1 + x) * d2 + y) / d2 = a * d1 + x := by
    rw [Nat.add_comm, Nat.add_mul_div_right _ _ hd2, Nat.div_eq_of_lt hy,
      Nat.zero_add]
  refine ⟨?_, ?_, ?_⟩
  · rw [Nat.mul_comm d1 d2, ← Nat.div_div_eq_div_mul, h1, Nat.add_comm,
      Nat.add_mul_div_right _ _ (Nat.zero_lt_of_lt hx), Nat.div_eq_of_lt hx,
      Nat.zero_add]
  · rw [h1, Nat.add_comm, Nat.add_mul_mod_self_right, Nat.mod_eq_of_lt hx]
  · rw [Nat.mul_comm (a * d1 + x) d2, Nat.mul_add_mod, Nat.mod_eq_of_lt hy]

theorem globalLayout_apply (Ph Pw : Nat) (t : Tensor4) (a b q r p s : Nat)
    (hp : p < Ph) (hs : s < Pw) :
    globalLayout Ph Pw t ((a * Ph + p) * Pw + s) b q r =
      t a b (q * Ph + p) (r * Pw + s) := by
  obtain ⟨e1, e2, e3⟩ := encode_div_mod a p s Ph Pw hp hs
  unfold globalLayout mergeBatch transpose035124 reshapeSplitHW
  rw [e1, e2, e3]

theorem localLayout_apply (Ph Pw Qh Qw : Nat) (t : Tensor4) (a b q r p s : Nat)
    (hq : q < Qh) (hr : r < Qw) :
    localLayout Ph Pw Qh Qw t ((a * Qh + q) * Qw + r) b p s =
      t ((a * Ph + p) * Pw + s) b q r := by
  obtain ⟨e1, e2, e3⟩ := encode_div_mod a q r Qh Qw hq hr
  unfold localLayout mergeBatch transpose045312 splitBatch
  rw [e1, e2, e3]

theorem recompose_local_global (Ph Pw Qh Qw : Nat) (t : Tensor4)
    (a b y x : Nat) (hPh : 0 < Ph) (hPw : 0 < Pw)
    (hy : y < Qh * Ph) (hx : x < Qw * Pw) :
    recompose Ph Pw Qh Qw (localLayout Ph Pw Qh Qw (globalLayout Ph Pw t))
      a b y x = t a b y x := by
  have hq : y / Ph < Qh := by
    rw [Nat.div_lt_iff_lt_mul hPh]; exact hy
  have hr : x / Pw < Qw := by
    rw [Nat.div_lt_iff_lt_mul hPw]; exact hx
  have hp : y % Ph < Ph := Nat.mod_lt _ hPh
  have hs : x % Pw < Pw := Nat.mod_lt _ hPw
  unfold recompose mergeHW transpose031425 splitBatch
  rw [localLayout_apply Ph Pw Qh Qw _ a b (y / Ph) (x / Pw) (y % Ph) (x % Pw)
    hq hr]
  rw [globalLayout_apply Ph Pw t a b (y / Ph) (x / Pw) (y % Ph) (x % Pw) hp hs]
  have hy2 : y / Ph * Ph + y % Ph = y := by
    rw [Nat.mul_comm]; exact Nat.div_add_mod y Ph
  have hx2 : x / Pw * Pw + x % Pw = x := by
    rw [Nat.mul_comm]; exact Nat.div_add_mod x Pw
  rw [hy2, hx2]

theorem cropSliceLen_center (h Ph : Nat) (hPh : 0 < Ph) :
    cropSliceLen (padH h Ph / 2) (padH h Ph / 2 + h) (Ph * ceilDiv h Ph) = h := by
  have hle : h ≤ ceilDiv h Ph * Ph := le_ceilDiv_mul h Ph hPh
  unfold cropSliceLen padH
  rw [Nat.mul_comm Ph (ceilDiv h Ph)]
  omega

theorem cropSliceLen_centerW (w Pw : Nat) (hPw : 0 < Pw) :
    cropSliceLen (padW w Pw / 2) (padW w Pw / 2 + w) (Pw * ceilDiv w Pw) = w := by
  have hle : w ≤ ceilDiv w Pw * Pw := le_ceilDiv_mul w Pw hPw
  unfold cropSliceLen padW
  rw [Nat.mul_comm Pw (ceilDiv w Pw)]
  omega

/-- C1: with both attention passes equal to the identity, the composite of
padding, global layout, local layout, recomposition and crop in
`ISAHead.forward` keeps the original dimension list (n, c, h, w) and maps every
element of the unpadded region to itself. -/
theorem isa_roundtrip_identity (x : Tensor4) (n c h w Ph Pw : Nat)
    (hPh : 0 < Ph) (hPw : 0 < Pw) :
    isaPipelineShapeL n c h w Ph Pw = [n, c, h, w] ∧
    ∀ a b i j, i < h → j < w →
      isaSpatialPipeline h w Ph Pw id id x a b i j = x a b i j := by
  have hleh : h ≤ ceilDiv h Ph * Ph := le_ceilDiv_mul h Ph hPh
  have hlew : w ≤ ceilDiv w Pw * Pw := le_ceilDiv_mul w Pw hPw
  constructor
  · unfold isaPipelineShapeL
    by_cases hc : 0 < padH h Ph ∨ 0 < padW w Pw
    · rw [if_pos hc, cropSliceLen_center h Ph hPh, cropSliceLen_centerW w Pw hPw]
    · rw [if_neg hc]
      unfold padH padW at hc
      push_neg at hc
      rw [Nat.mul_comm Ph (ceilDiv h Ph), Nat.mul_comm Pw (ceilDiv w Pw)]
      have e1 : ceilDiv h Ph * Ph = h := by omega
      have e2 : ceilDiv w Pw * Pw = w := by omega
      rw [e1, e2]
  · intro a b i j hi hj
    unfold isaSpatialPipeline
    simp only [id]
    by_cases hc : 0 < padH h Ph ∨ 0 < padW w Pw
    · rw [if_pos hc, if_pos hc]
      unfold cropFeat
      rw [recompose_local_global Ph Pw (ceilDiv h Ph) (ceilDiv w Pw) _
        a b (padH h Ph / 2 + i) (padW w Pw / 2 + j) hPh hPw
        (by unfold padH at *; omega) (by unfold padW at *; omega)]
      unfold padFeat
      rw [if_pos (by omega)]
      have e1 : padH h Ph / 2 + i - padH h Ph / 2 = i := by omega
      have e2 : padW w Pw / 2 + j - padW w Pw / 2 = j := by omega
      rw [e1, e2]
    · rw [if_neg hc, if_neg hc]
      unfold padH padW at hc
      push_neg at hc
      exact recompose_local_global Ph Pw (ceilDiv h Ph) (ceilDiv w Pw) x
        a b i j hPh hPw (by omega) (by omega)

/-- Concrete instance of C1: a 5 x 7 map with group factor (2, 4) (so both axes
need padding) round-trips through the pipeline unchanged. -/
theorem isa_roundtrip_identity_witness :
    isaPipelineShapeL 1 3 5 7 2 4 = [1, 3, 5, 7] ∧
    isaSpatialPipeline 5 7 2 4 id id sampleT 0 2 4 6 = sampleT 0 2 4 6 := by
  obtain ⟨h1, h2⟩ := isa_roundtrip_identity sampleT 1 3 5 7 2 4
    (by decide) (by decide)
  exact ⟨h1, h2 0 2 4 6 (by decide) (by decide)⟩

/-- C3: the grid sizes are the ceilings `Q_h = ceil(h / P_h)`,
`Q_w = ceil(w / P_w)`; the padded extents are exactly `Q_h * P_h` and
`Q_w * P_w`; the deficit splits as floor-half on the top/left and ceil-half on
the bottom/right; the padded map holds the original values at the recorded
offsets and zero on the border. -/
theorem padding_split (x : Tensor4) (h w Ph Pw : Nat)
    (hPh : 0 < Ph) (hPw : 0 < Pw) :
    h + padH h Ph = ceilDiv h Ph * Ph ∧
    w + padW w Pw = ceilDiv w Pw * Pw ∧
    padH h Ph / 2 + (padH h Ph - padH h Ph / 2) = padH h Ph ∧
    padH h Ph - padH h Ph / 2 = (padH h Ph + 1) / 2 ∧
    padW w Pw - padW w Pw / 2 = (padW w Pw + 1) / 2 ∧
    (∀ a b i j, i < h → j < w →
      padFeat x h w Ph Pw a b (padH h Ph / 2 + i) (padW w Pw / 2 + j) =
        x a b i j) ∧
    (∀ a b i j,
      (i < padH h Ph / 2 ∨ padH h Ph / 2 + h ≤ i ∨
       j < padW w Pw / 2 ∨ padW w Pw / 2 + w ≤ j) →
      padFeat x h w Ph Pw a b i j = 0) := by
  have hleh : h ≤ ceilDiv h Ph * Ph := le_ceilDiv_mul h Ph hPh
  have hlew : w ≤ ceilDiv w Pw * Pw := le_ceilDiv_mul w Pw hPw
  refine ⟨by unfold padH; omega, by unfold padW; omega, by omega, by omega,
    by omega, ?_, ?_⟩
  · intro a b i j hi hj
    unfold padFeat
    rw [if_pos (by omega)]
    have e1 : padH h Ph / 2 + i - padH h Ph / 2 = i := by omega
    have e2 : padW w Pw / 2 + j - padW w Pw / 2 = j := by omega
    rw [e1, e2]
  · intro a b i j hout
    unfold padFeat
    rw [if_neg (by omega)]

/-- Concrete instance of C3: for h = 13 and P_h = 8 the grid size is 2, the
deficit is 3, and it splits as 1 on top and 2 on bottom; the padded map places
original values at the offset and zero on the border. -/
theorem padding_split_witness :
    ceilDiv 13 8 = 2 ∧ padH 13 8 = 3 ∧ padH 13 8 / 2 = 1 ∧
    padH 13 8 - padH 13 8 / 2 = 2 ∧
    13 + padH 13 8 = ceilDiv 13 8 * 8 ∧
    padFeat sampleT 13 13 8 8 0 0 (padH 13 8 / 2 + 5) (padH 13 8 / 2 + 6) =
      sampleT 0 0 5 6 ∧
    padFeat sampleT 13 13 8 8 0 0 0 0 = 0 := by
  obtain ⟨h1, _, _, _, _, h6, h7⟩ :=
    padding_split sampleT 13 13 8 8 (by decide) (by decide)
  exact ⟨by decide, by decide, by decide, by decide, h1,
    h6 0 0 5 6 (by decide) (by decide), h7 0 0 0 0 (by decide)⟩

/-- C4: the global-pass rearrangement yields dimension list
`[n * P_h * P_w, c, Q_h, Q_w]` with the intra-group offsets folded into the
batch axis, and the local-pass rearrangement of its output yields
`[n * Q_h * Q_w, c, P_h, P_w]` with the group coordinates folded into the batch
axis; the element-level folding equations identify which source position each
slot holds. -/
theorem layout_shapes_and_folding (n c Qh Ph Qw Pw : Nat)
    (hc : 0 < c) (hQh : 0 < Qh) (hQw : 0 < Qw) (hPh : 0 < Ph) (hPw : 0 < Pw) :
    isaGlobalShapeL n c Qh Ph Qw Pw = [n * Ph * Pw, c, Qh, Qw] ∧
    isaLocalShapeL n c Qh Ph Qw Pw = [n * Qh * Qw, c, Ph, Pw] ∧
    (∀ (t : Tensor4) a b q r p s, p < Ph → s < Pw →
      globalLayout Ph Pw t ((a * Ph + p) * Pw + s) b q r =
        t a b (q * Ph + p) (r * Pw + s)) ∧
    (∀ (t : Tensor4) a b q r p s, q < Qh → r < Qw →
      localLayout Ph Pw Qh Qw t ((a * Qh + q) * Qw + r) b p s =
        t ((a * Ph + p) * Pw + s) b q r) := by
  refine ⟨?_, ?_, ?_, ?_⟩
  · show n * (Ph * (Pw * (c * (Qh * (Qw * 1))))) / (c * (Qh * (Qw * 1))) ::
      [c, Qh, Qw] = _
    have e : n * (Ph * (Pw * (c * (Qh * (Qw * 1))))) =
        n * Ph * Pw * (c * (Qh * (Qw * 1))) := by ring
    rw [e, Nat.mul_div_cancel _ (by positivity)]
  · show n * (Qh * (Qw * (c * (Ph * (Pw * 1))))) / (c * (Ph * (Pw * 1))) ::
      [c, Ph, Pw] = _
    have e : n * (Qh * (Qw * (c * (Ph * (Pw * 1))))) =
        n * Qh * Qw * (c * (Ph * (Pw * 1))) := by ring
    rw [e, Nat.mul_div_cancel _ (by positivity)]
  · intro t a b q r p s hp hs
    exact globalLayout_apply Ph Pw t a b q r p s hp hs
  · intro t a b q r p s hq hr
    exact localLayout_apply Ph Pw Qh Qw t a b q r p s hq hr

/-- Concrete instance of C4: with n = 1, c = 2, Q_h = 4, P_h = 2, Q_w = 5,
P_w = 3 the two rearrangements produce the folded dimension lists, and the
element equations hold at a sample index. -/
theorem layout_shapes_and_folding_witness :
    isaGlobalShapeL 1 2 4 2 5 3 = [6, 2, 4, 5] ∧
    isaLocalShapeL 1 2 4 2 5 3 = [20, 2, 2, 3] ∧
    globalLayout 2 3 sampleT ((0 * 2 + 1) * 3 + 2) 0 1 2 =
      sampleT 0 0 (1 * 2 + 1) (2 * 3 + 2) ∧
    localLayout 2 3 4 5 sampleT ((0 * 4 + 3) * 5 + 4) 0 1 2 =
      sampleT ((0 * 2 + 1) * 3 + 2) 0 3 4 := by
  obtain ⟨h1, h2, h3, h4⟩ := layout_shapes_and_folding 1 2 4 2 5 3
    (by decide) (by decide) (by decide) (by decide) (by decide)
  exact ⟨h1, h2, h3 sampleT 0 0 1 2 1 2 (by decide) (by decide),
    h4 sampleT 0 0 3 4 1 2 (by decide) (by decide)⟩

structure Shape4 where
  n : Nat
  c : Nat
  h : Nat
  w : Nat
deriving DecidableEq, Repr

/-- Errors observable while constructing the decoder. `configurationError` is
the validation failure the specification describes; `indexError` is the native
failure of `in_channels[-1]` on an empty list (no other failure path exists in
`ISAHead.__init__`). -/
inductive InitError where
  | configurationError
  | indexError
deriving DecidableEq, Repr

/-- Errors observable during a forward evaluation. `shapeMismatchError` covers
a feature list that does not supply the required stages;
`channelMismatchError` covers a convolution or attention applied to a map whose
channel count differs from the constructed one; `nativeRuntimeError` covers the
framework failures a non-positive group factor causes inside
`ISAHead.forward`. -/
inductive ForwardError where
  | shapeMismatchError
  | channelMismatchError
  | nativeRuntimeError
deriving DecidableEq, Repr

/-- Modelled from the spec: the ConvBlock primitive
(`apply(input, out_channels, kernel_size, use_bias)`) of the external layers
module (`layers.ConvBNReLU`, absent from the sources); it maps the channel
extent to `out_channels`, preserves batch and spatial extents, and requires the
input channel extent to equal the constructed one. -/
def convBNReLU_shape (inC outC : Nat) (s : Shape4) : Except ForwardError Shape4 :=
  if s.c = inC then .ok ⟨s.n, outC, s.h, s.w⟩ else .error .channelMismatchError

/-- Modelled from the spec: a 1x1 `nn.Conv2D` (the classifier convolutions);
shape behaviour identical to a ConvBlock. `nn.Dropout2D` preserves the shape
and is therefore not represented. -/
def conv2d_shape (inC outC : Nat) (s : Shape4) : Except ForwardError Shape4 :=
  if s.c = inC then .ok ⟨s.n, outC, s.h, s.w⟩ else .error .channelMismatchError

/-- Modelled from the spec: the SelfAttentionPrimitive
(`attend(query, key) -> context`, section 4.2; `SelfAttentionBlock` is built
atop the external `layers.AttentionBlock`): it projects, attends and reshapes
back, so the output shape equals the input shape, and the constructed
key/query input channel extent must match the input. -/
def attention_shape (inC : Nat) (s : Shape4) : Except ForwardError Shape4 :=
  if s.c = inC then .ok s else .error .channelMismatchError

/-- Shape of `paddle.concat([f, x], axis=1)`: channel extents add; the other
extents must agree. -/
def concatChannels (f x : Shape4) : Except ForwardError Shape4 :=
  if f.n = x.n ∧ f.h = x.h ∧ f.w = x.w then .ok ⟨f.n, f.c + x.c, f.h, f.w⟩
  else .error .shapeMismatchError

/-- The state `ISAHead.__init__` stores: the selected stage channel count
`in_channels[-1]`, the reduced count `in_channels // 4`, the ISA channel
argument, the group factor, the auxiliary flag, the class count, and the input
channel count of the auxiliary ConvBlock (the literal 1024 in the source). -/
structure ISAHeadState where
  in_channels : Nat
  inter_channels : Nat
  isa_channels : Nat
  down_factor : Int × Int
  enable_auxiliary_loss : Bool
  num_classes : Nat
  aux_in_channels : Nat
deriving DecidableEq, Repr

/-- Embedding of `ISAHead.__init__`: it reads `in_channels[-1]`, computes
`inter_channels = in_channels // 4` by floor division, stores its arguments and
builds the sublayers; the source contains no validation of divisibility or of
the group factor, so the only failure path is an empty channel list. -/
def ISAHead_init (num_classes : Nat) (in_channels : List Nat)
    (isa_channels : Nat) (down_factor : Int × Int)
    (enable_auxiliary_loss : Bool) : Except InitError ISAHeadState :=
  match in_channels.getLast? with
  | none => .error .indexError
  | some c =>
      .ok ⟨c, c / 4, isa_channels, down_factor, enable_auxiliary_loss,
        num_classes, 1024⟩

/-- The primary branch of `ISAHead.forward` at shape level: `in_conv`, the
padded partition, `global_relation`, `local_relation`, recomposition, crop,
fusion with `x` through `out_conv`, and the classifier `cls`. A non-positive
group factor makes the framework fail (zero division or an invalid reshape);
every reshape follows the extents written in the source, the
`reshape([-1, ...])` extents being the total element count divided by the
stated extents. -/
def ISAHead_primary (st : ISAHeadState) (c4s : Shape4) :
    Except ForwardError Shape4 :=
  match convBNReLU_shape st.in_channels st.inter_channels c4s with
  | .error e => .error e
  | .ok x =>
    if 0 < st.down_factor.1 ∧ 0 < st.down_factor.2 then
      let Ph := st.down_factor.1.toNat
      let Pw := st.down_factor.2.toNat
      let Qh := ceilDiv x.h Ph
      let Qw := ceilDiv x.w Pw
      let padded : Shape4 := ⟨x.n, x.c, x.h + padH x.h Ph, x.w + padW x.w Pw⟩
      let gIn : Shape4 :=
        ⟨padded.n * padded.c * padded.h * padded.w / (padded.c * Qh * Qw),
         padded.c, Qh, Qw⟩
      match attention_shape st.inter_channels gIn with
      | .error e => .error e
      | .ok g =>
        let lIn : Shape4 := ⟨g.n * g.c * g.h * g.w / (g.c * Ph * Pw), g.c, Ph, Pw⟩
        match attention_shape st.inter_channels lIn with
        | .error e => .error e
        | .ok _ =>
          let recomposed : Shape4 := ⟨x.n, x.c, Ph * Qh, Pw * Qw⟩
          let cropped : Shape4 :=
            if 0 < padH x.h Ph ∨ 0 < padW x.w Pw then
              ⟨x.n, x.c,
               cropSliceLen (padH x.h Ph / 2) (padH x.h Ph / 2 + x.h) (Ph * Qh),
               cropSliceLen (padW x.w Pw / 2) (padW x.w Pw / 2 + x.w) (Pw * Qw)⟩
            else recomposed
          match concatChannels cropped x with
          | .error e => .error e
          | .ok cat =>
            match convBNReLU_shape (st.inter_channels * 2) st.inter_channels cat with
            | .error e => .error e
            | .ok fused => conv2d_shape st.inter_channels st.num_classes fused
    else .error .nativeRuntimeError

/-- The fusion step of `ISAHead.forward`:
`self.out_conv(paddle.concat([feat, x], axis=1))`. -/
def fusionStep (st : ISAHeadState) (feat x : Shape4) :
    Except ForwardError Shape4 :=
  match concatChannels feat x with
  | .error e => .error e
  | .ok cat => convBNReLU_shape (st.inter_channels * 2) st.inter_channels cat

/-- The auxiliary branch `self.aux` of `ISAHead.forward`: a ConvBlock whose
input channel count is the stored literal, then dropout and a 1x1 classifier
convolution. -/
def ISAHead_aux (st : ISAHeadState) (c3s : Shape4) :
    Except ForwardError Shape4 :=
  match convBNReLU_shape st.aux_in_channels 256 c3s with
  | .error e => .error e
  | .ok t => conv2d_shape 256 st.num_classes t

/-- Embedding of `ISAHead.forward` at shape level: the unpacking
`C3, C4 = feat_list` requires exactly two feature maps; the primary branch is
always evaluated; the auxiliary branch is appended when the flag is set. -/
def ISAHead_forward_shape (st : ISAHeadState) (feat_list : List Shape4) :
    Except ForwardError (List Shape4) :=
  match feat_list with
  | [c3s, c4s] =>
    match ISAHead_primary st c4s with
    | .error e => .error e
    | .ok output =>
      if st.enable_auxiliary_loss then
        match ISAHead_aux st c3s with
        | .error e => .error e
        | .ok auxout => .ok [output, auxout]
      else .ok [output]
  | _ => .error .shapeMismatchError

/-- The selection `[feats[i] for i in self.backbone_indices]` of
`ISANet.forward`: an index at or beyond the length of the backbone output
fails (the native IndexError, reported here as the shape mismatch the
specification names). -/
def selectStages (idx : List Nat) (feats : List Shape4) :
    Except ForwardError (List Shape4) :=
  if idx.all (fun i => decide (i < feats.length)) then
    .ok (idx.map (fun i => feats.getD i ⟨0, 0, 0, 0⟩))
  else .error .shapeMismatchError

/-- Shape of `F.interpolate(logit, x.shape[2:], mode='bilinear', ...)`:
batch and channel extents are kept and the spatial extents become the
target. Modelled from the spec: bilinear upsampling to the original input
resolution (the framework primitive is external). -/
def interpolate_shape (th tw : Nat) (s : Shape4) : Shape4 :=
  ⟨s.n, s.c, th, tw⟩

/-- Configuration of `ISANet.__init__`: class count, the backbone's published
`feat_channels`, the selected `backbone_indices`, the ISA channels, the group
factor and the auxiliary flag. -/
structure ISANetConfig where
  num_classes : Nat
  feat_channels : List Nat
  backbone_indices : List Nat
  isa_channels : Nat
  down_factor : Int × Int
  enable_auxiliary_loss : Bool
deriving DecidableEq, Repr

/-- Embedding of `ISANet.__init__`: it selects
`[backbone.feat_channels[i] for i in backbone_indices]` (failing natively on an
out-of-range index) and constructs the head from the selected counts. -/
def ISANet_init (cfg : ISANetConfig) : Except InitError ISAHeadState :=
  if cfg.backbone_indices.all (fun i => decide (i < cfg.feat_channels.length)) then
    ISAHead_init cfg.num_classes
      (cfg.backbone_indices.map (fun i => cfg.feat_channels.getD i 0))
      cfg.isa_channels cfg.down_factor cfg.enable_auxiliary_loss
  else .error .indexError

/-- Embedding of `ISANet.forward` at shape level: the backbone output list
(modelled from the spec as an external collaborator producing a list of
feature maps) is filtered through `backbone_indices`, passed to the head, and
every resulting logit map is bilinearly interpolated to the spatial extents of
the input image. -/
def ISANet_forward_shape (st : ISAHeadState) (backbone_indices : List Nat)
    (backboneOut : List Shape4) (xs : Shape4) :
    Except ForwardError (List Shape4) :=
  match selectStages backbone_indices backboneOut with
  | .error e => .error e
  | .ok sel =>
    match ISAHead_forward_shape st sel with
    | .error e => .error e
    | .ok logits => .ok (logits.map (interpolate_shape xs.h xs.w))

/-- Argument and result type of `get_num_workers`: either the string `'auto'`
or an explicit worker count. -/
inductive NumWorkersArg where
  | auto
  | count (n : Nat)
deriving DecidableEq, Repr

/-- Embedding of `get_num_workers` from `paddlex/utils/env.py`: an `'auto'`
argument becomes `cpu_count // 2` when that is below 8 and 8 otherwise; any
other argument is returned unchanged. -/
def get_num_workers (cpu_count : Nat) (nw : NumWorkersArg) : NumWorkersArg :=
  match nw with
  | .auto => .count (if cpu_count / 2 < 8 then cpu_count / 2 else 8)
  | .count n => .count n
theorem ISAHead_primary_ok (st : ISAHeadState) (c4s : Shape4) (Ph Pw : Nat)
    (hdf : st.down_factor = (Int.ofNat Ph, Int.ofNat Pw))
    (hPh : 0 < Ph) (hPw : 0 < Pw) (hc : c4s.c = st.in_channels) :
    ISAHead_primary st c4s = .ok ⟨c4s.n, st.num_classes, c4s.h, c4s.w⟩ := by
  obtain ⟨ic, inter, isa, df, auxf, nc, auxc⟩ := st
  obtain ⟨sn, sc, sh, sw⟩ := c4s
  simp only at hdf hc
  subst hdf
  subst hc
  have ePh : (Int.ofNat Ph).toNat = Ph := rfl
  have ePw : (Int.ofNat Pw).toNat = Pw := rfl
  have hcond : (0 : Int) < (Int.ofNat Ph, Int.ofNat Pw).1 ∧
      (0 : Int) < (Int.ofNat Ph, Int.ofNat Pw).2 :=
    ⟨Int.ofNat_pos.mpr hPh, Int.ofNat_pos.mpr hPw⟩
  by_cases hp : 0 < padH sh Ph ∨ 0 < padW sw Pw
  · simp [ISAHead_primary, convBNReLU_shape, attention_shape, conv2d_shape,
      concatChannels, ePh, ePw, hcond, hp, cropSliceLen_center sh Ph hPh,
      cropSliceLen_centerW sw Pw hPw, Nat.mul_two]
    omega
  · have h1 : sh ≤ ceilDiv sh Ph * Ph := le_ceilDiv_mul sh Ph hPh
    have h2 : sw ≤ ceilDiv sw Pw * Pw := le_ceilDiv_mul sw Pw hPw
    have hp' := hp
    unfold padH padW at hp'
    push_neg at hp'
    have e1 : Ph * ceilDiv sh Ph = sh := by
      rw [Nat.mul_comm Ph (ceilDiv sh Ph)]; omega
    have e2 : Pw * ceilDiv sw Pw = sw := by
      rw [Nat.mul_comm Pw (ceilDiv sw Pw)]; omega
    simp [ISAHead_primary, convBNReLU_shape, attention_shape, conv2d_shape,
      concatChannels, ePh, ePw, hcond, hp, e1, e2, Nat.mul_two]
    omega

/-- C2 (counterexample): constructing the head with a selected stage channel
count of 230 (not divisible by 4) and a group factor (0, -3) (both entries
non-positive) raises nothing: construction succeeds, silently flooring the
reduced channel count to 57, where the claim demands a ConfigurationError. -/
theorem isahead_init_no_validation_cex :
    ISAHead_init 19 [512, 230] 256 (0, -3) true =
      .ok ⟨230, 57, 256, (0, -3), true, 19, 1024⟩ := by
  rfl

/-- C2 (amended): `ISAHead.__init__` performs no validation: for every
argument vector with a nonempty channel list it succeeds, storing the floored
reduced count `in_channels[-1] // 4` and the group factor unchecked; no
ConfigurationError exists in the constructor. -/
theorem isahead_init_total (num_classes : Nat) (in_channels : List Nat)
    (isa_channels : Nat) (down_factor : Int × Int) (auxFlag : Bool) (c : Nat)
    (hlast : in_channels.getLast? = some c) :
    ISAHead_init num_classes in_channels isa_channels down_factor auxFlag =
      .ok ⟨c, c / 4, isa_channels, down_factor, auxFlag, num_classes, 1024⟩ := by
  unfold ISAHead_init
  rw [hlast]

/-- Concrete instance of the amended C2: a channel count of 10 and a group
factor (-2, 5) are accepted unchecked. -/
theorem isahead_init_total_witness :
    ISAHead_init 7 [8, 10] 1 (-2, 5) false =
      .ok ⟨10, 2, 1, (-2, 5), false, 7, 1024⟩ :=
  isahead_init_total 7 [8, 10] 1 (-2, 5) false 10 (by rfl)

/-- C5: with backbone channel counts [256, 512, 1024, 2048], stage indices
(2, 3), group factor (8, 8) and 19 classes, a forward evaluation on a
(1, 3, 512, 512) image returns the primary and the auxiliary score map, both
bilinearly upsampled to (1, 19, 512, 512), whatever the spatial extents of the
backbone stages. -/
theorem isanet_end_to_end (st : ISAHeadState)
    (hinit : ISANet_init
      ⟨19, [256, 512, 1024, 2048], [2, 3], 256, (8, 8), true⟩ = .ok st)
    (s0 s1 : Shape4) (h3 w3 h4 w4 : Nat) :
    ISANet_forward_shape st [2, 3]
      [s0, s1, ⟨1, 1024, h3, w3⟩, ⟨1, 2048, h4, w4⟩] ⟨1, 3, 512, 512⟩ =
      .ok [⟨1, 19, 512, 512⟩, ⟨1, 19, 512, 512⟩] := by
  have hred : ISANet_init
      ⟨19, [256, 512, 1024, 2048], [2, 3], 256, (8, 8), true⟩ =
      .ok ⟨2048, 512, 256, (8, 8), true, 19, 1024⟩ := rfl
  rw [hred] at hinit
  injection hinit with h
  subst h
  have hprim : ISAHead_primary ⟨2048, 512, 256, (8, 8), true, 19, 1024⟩
      ⟨1, 2048, h4, w4⟩ = .ok ⟨1, 19, h4, w4⟩ :=
    ISAHead_primary_ok _ _ 8 8 rfl (by decide) (by decide) rfl
  have hsel : selectStages [2, 3]
      [s0, s1, ⟨1, 1024, h3, w3⟩, ⟨1, 2048, h4, w4⟩] =
      .ok [⟨1, 1024, h3, w3⟩, ⟨1, 2048, h4, w4⟩] := rfl
  simp [ISANet_forward_shape, ISAHead_forward_shape, hsel, hprim, ISAHead_aux,
    convBNReLU_shape, conv2d_shape, interpolate_shape]

/-- Concrete instance of C5: backbone stages with spatial extents 64 x 64 and
128 x 128 give both outputs at (1, 19, 512, 512). -/
theorem isanet_end_to_end_witness :
    ISANet_forward_shape ⟨2048, 512, 256, (8, 8), true, 19, 1024⟩ [2, 3]
      [⟨1, 256, 128, 128⟩, ⟨1, 512, 128, 128⟩, ⟨1, 1024, 128, 128⟩,
       ⟨1, 2048, 64, 64⟩] ⟨1, 3, 512, 512⟩ =
      .ok [⟨1, 19, 512, 512⟩, ⟨1, 19, 512, 512⟩] :=
  isanet_end_to_end ⟨2048, 512, 256, (8, 8), true, 19, 1024⟩ (by rfl)
    ⟨1, 256, 128, 128⟩ ⟨1, 512, 128, 128⟩ 128 128 64 64

/-- C6: a successful forward evaluation of the head returns exactly one score
map when the auxiliary flag is off and exactly two when it is on, the primary
map first and the auxiliary map second. -/
theorem aux_toggle (st : ISAHeadState) (c3s c4s : Shape4) (r : List Shape4)
    (hfwd : ISAHead_forward_shape st [c3s, c4s] = .ok r) :
    r.length = (if st.enable_auxiliary_loss then 2 else 1) ∧
    ∃ o, ISAHead_primary st c4s = .ok o ∧
      ((st.enable_auxiliary_loss = true ∧
        ∃ a2, ISAHead_aux st c3s = .ok a2 ∧ r = [o, a2]) ∨
       (st.enable_auxiliary_loss = false ∧ r = [o])) := by
  unfold ISAHead_forward_shape at hfwd
  cases hO : ISAHead_primary st c4s with
  | error e =>
      simp only [hO] at hfwd
      exact Except.noConfusion hfwd
  | ok o =>
    simp only [hO] at hfwd
    cases hb : st.enable_auxiliary_loss with
    | true =>
      simp only [hb, if_true] at hfwd
      cases hA : ISAHead_aux st c3s with
      | error e =>
          simp only [hA] at hfwd
          exact Except.noConfusion hfwd
      | ok a2 =>
        simp only [hA] at hfwd
        injection hfwd with h
        subst h
        exact ⟨by simp [hb], o, rfl, Or.inl ⟨rfl, a2, rfl, rfl⟩⟩
    | false =>
      simp only [hb, if_false] at hfwd
      injection hfwd with h
      subst h
      exact ⟨by simp [hb], o, rfl, Or.inr ⟨rfl, rfl⟩⟩

/-- Concrete instance of C6: with the auxiliary flag off the head returns one
map; the primary map is its head. -/
theorem aux_toggle_witness :
    (if (⟨2048, 512, 256, (8, 8), false, 19, 1024⟩ :
        ISAHeadState).enable_auxiliary_loss then 2 else 1) = 1 ∧
    ∃ o, ISAHead_primary ⟨2048, 512, 256, (8, 8), false, 19, 1024⟩
        ⟨1, 2048, 16, 16⟩ = .ok o ∧
      (((⟨2048, 512, 256, (8, 8), false, 19, 1024⟩ :
          ISAHeadState).enable_auxiliary_loss = true ∧
        ∃ a2, ISAHead_aux ⟨2048, 512, 256, (8, 8), false, 19, 1024⟩
          ⟨1, 1024, 32, 32⟩ = .ok a2 ∧ [⟨1, 19, 16, 16⟩] = [o, a2]) ∨
       ((⟨2048, 512, 256, (8, 8), false, 19, 1024⟩ :
          ISAHeadState).enable_auxiliary_loss = false ∧
        ([⟨1, 19, 16, 16⟩] : List Shape4) = [o])) := by
  have h := aux_toggle ⟨2048, 512, 256, (8, 8), false, 19, 1024⟩
    ⟨1, 1024, 32, 32⟩ ⟨1, 2048, 16, 16⟩ [⟨1, 19, 16, 16⟩] (by rfl)
  exact ⟨by decide, h.2⟩

/-- C7: a backbone output that does not contain the configured stages (an
index at or past its length) makes the model forward fail with the shape
mismatch error, and a head input list whose length is not two fails the same
way; both are returned errors, never retried. -/
theorem forward_stage_mismatch (st : ISAHeadState) (idx : List Nat)
    (bb : List Shape4) (xs : Shape4) (feats : List Shape4)
    (hidx : idx.all (fun i => decide (i < bb.length)) = false)
    (hlen : feats.length ≠ 2) :
    ISANet_forward_shape st idx bb xs = .error .shapeMismatchError ∧
    ISAHead_forward_shape st feats = .error .shapeMismatchError := by
  constructor
  · unfold ISANet_forward_shape selectStages
    rw [hidx]
    rfl
  · rcases feats with _ | ⟨a, _ | ⟨b, _ | ⟨c, t⟩⟩⟩
    · rfl
    · rfl
    · exact absurd rfl hlen
    · rfl

/-- Concrete instance of C7: stage indices (2, 3) against a backbone list of
length 2 fail, and a head input list of length 1 fails. -/
theorem forward_stage_mismatch_witness :
    ISANet_forward_shape ⟨2048, 512, 256, (8, 8), true, 19, 1024⟩ [2, 3]
      [⟨1, 256, 8, 8⟩, ⟨1, 512, 8, 8⟩] ⟨1, 3, 64, 64⟩ =
      .error .shapeMismatchError ∧
    ISAHead_forward_shape ⟨2048, 512, 256, (8, 8), true, 19, 1024⟩
      [⟨1, 2048, 8, 8⟩] = .error .shapeMismatchError :=
  forward_stage_mismatch ⟨2048, 512, 256, (8, 8), true, 19, 1024⟩ [2, 3]
    [⟨1, 256, 8, 8⟩, ⟨1, 512, 8, 8⟩] ⟨1, 3, 64, 64⟩ [⟨1, 2048, 8, 8⟩]
    (by decide) (by decide)

/-- C8: for a head built by the constructor, the fusion step (the ConvBlock
over the concatenation of the recomposed map and the reduced map) outputs
exactly `inter_channels` channels, which equals the selected pre-reduction
channel count floored by 4, whatever the spatial extents. -/
theorem fusion_channels (num_classes : Nat) (in_channels : List Nat)
    (isa_channels : Nat) (down_factor : Int × Int) (auxFlag : Bool)
    (st : ISAHeadState) (c : Nat)
    (hlast : in_channels.getLast? = some c)
    (hinit : ISAHead_init num_classes in_channels isa_channels down_factor
      auxFlag = .ok st)
    (f x : Shape4) (hf : f.c = st.inter_channels) (hx : x.c = st.inter_channels)
    (hn : f.n = x.n) (hh : f.h = x.h) (hw : f.w = x.w) :
    fusionStep st f x = .ok ⟨f.n, c / 4, f.h, f.w⟩ ∧
    st.inter_channels = c / 4 := by
  unfold ISAHead_init at hinit
  rw [hlast] at hinit
  injection hinit with h
  subst h
  simp only at hf hx
  refine ⟨?_, rfl⟩
  simp [fusionStep, concatChannels, convBNReLU_shape, hn, hh, hw, hf, hx,
    Nat.mul_two]

/-- Concrete instance of C8: a head over channel counts [1024, 2048] fuses a
33 x 65 map to 512 = 2048 / 4 channels. -/
theorem fusion_channels_witness :
    fusionStep ⟨2048, 512, 256, (8, 8), true, 19, 1024⟩ ⟨1, 512, 33, 65⟩
      ⟨1, 512, 33, 65⟩ = .ok ⟨1, 2048 / 4, 33, 65⟩ ∧
    (⟨2048, 512, 256, (8, 8), true, 19, 1024⟩ :
      ISAHeadState).inter_channels = 2048 / 4 :=
  fusion_channels 19 [1024, 2048] 256 (8, 8) true
    ⟨2048, 512, 256, (8, 8), true, 19, 1024⟩ 2048 (by rfl) (by rfl)
    ⟨1, 512, 33, 65⟩ ⟨1, 512, 33, 65⟩ rfl rfl rfl rfl rfl

/-- C9: whatever channel list and stage selection the head is constructed
with, the stored auxiliary input channel count is the literal 1024; the
auxiliary branch succeeds exactly on lower-stage maps with 1024 channels and
fails with a channel mismatch on every other count. -/
theorem aux_channels_fixed (num_classes : Nat) (in_channels : List Nat)
    (isa_channels : Nat) (down_factor : Int × Int) (auxFlag : Bool)
    (st : ISAHeadState)
    (hinit : ISAHead_init num_classes in_channels isa_channels down_factor
      auxFlag = .ok st) :
    st.aux_in_channels = 1024 ∧
    (∀ s : Shape4, s.c = 1024 →
      ISAHead_aux st s = .ok ⟨s.n, st.num_classes, s.h, s.w⟩) ∧
    (∀ s : Shape4, s.c ≠ 1024 →
      ISAHead_aux st s = .error .channelMismatchError) := by
  unfold ISAHead_init at hinit
  cases hl : in_channels.getLast? with
  | none => rw [hl] at hinit; cases hinit
  | some c =>
    rw [hl] at hinit
    injection hinit with h
    subst h
    refine ⟨rfl, ?_, ?_⟩
    · intro s hs
      simp [ISAHead_aux, convBNReLU_shape, conv2d_shape, hs]
    · intro s hs
      simp [ISAHead_aux, convBNReLU_shape, conv2d_shape, hs]

/-- Concrete instance of C9: a head built over channel counts [512, 2048]
(lower stage 512, not 1024) still demands 1024 channels in the auxiliary
branch: it accepts a 1024-channel map and rejects the 512-channel one. -/
theorem aux_channels_fixed_witness :
    (⟨2048, 512, 256, (8, 8), true, 19, 1024⟩ :
      ISAHeadState).aux_in_channels = 1024 ∧
    ISAHead_aux ⟨2048, 512, 256, (8, 8), true, 19, 1024⟩ ⟨1, 1024, 8, 8⟩ =
      .ok ⟨1, 19, 8, 8⟩ ∧
    ISAHead_aux ⟨2048, 512, 256, (8, 8), true, 19, 1024⟩ ⟨1, 512, 8, 8⟩ =
      .error .channelMismatchError := by
  have h := aux_channels_fixed 19 [512, 2048] 256 (8, 8) true
    ⟨2048, 512, 256, (8, 8), true, 19, 1024⟩ (by rfl)
  exact ⟨h.1, h.2.1 ⟨1, 1024, 8, 8⟩ (by decide), h.2.2 ⟨1, 512, 8, 8⟩ (by decide)⟩

/-- C10: `get_num_workers` maps the `'auto'` argument to
`min(cpu_count // 2, 8)` (floor half the CPU count, capped at 8, so the
automatic choice never exceeds 8) and returns every explicit count
unchanged. -/
theorem get_num_workers_spec (cpu_count : Nat) :
    get_num_workers cpu_count .auto = .count (min (cpu_count / 2) 8) ∧
    (∀ n, get_num_workers cpu_count (.count n) = .count n) ∧
    min (cpu_count / 2) 8 ≤ 8 := by
  refine ⟨?_, fun n => rfl, min_le_right _ _⟩
  unfold get_num_workers
  by_cases hc : cpu_count / 2 < 8
  · rw [if_pos hc, min_eq_left hc.le]
  · rw [if_neg hc, min_eq_right (le_of_not_lt hc)]
